import Mathlib

/-!
Verification of the ERC-721 event-sync adapter
(src/sync/onchain/events/erc721/index.ts) and the event-store dedup key
(migrations/1643809164130_cancels.sql) of the Reservoir Protocol indexer.

The adapter code is embedded shallowly: the `syncCallback` loop body becomes
a pure state-transformer `processLog` on an accumulator mirroring the three
arrays and the error-logging counter; `syncCallback` folds it over the batch
and models the final persistence/enqueue step.  Code the repository uses but
that is not among the sources (the base-params extractor `parseEvent`, the
ethers ABI `parseLog` decoder, and the event store) is modelled from the
spec, as marked on each such definition.
-/

namespace Erc721Sync

/-- Keccak-256 topic of `Transfer(address,address,uint256)`, the value
`abi.getEventTopic "Transfer"` returns.  Both the standard and the
non-standard ABI entry share this signature, hence this topic. -/
def transferTopic : String :=
  "0xddf252ad1be2c89b69c2b068fc378daa952ba7f163c4a11628f55a4df523b3ef"

/-- Keccak-256 topic of `ApprovalForAll(address,address,bool)`, the value
`abi.getEventTopic "ApprovalForAll"` returns. -/
def approvalForAllTopic : String :=
  "0x17307eab39ab6107e8899845ad3d59bd9653f200f220920489ca2b5937696c31"

/-- A raw on-chain log as delivered by the provider.  `topics` are 32-byte
words rendered as strings (indexed event arguments); `data` is the
non-indexed payload, word by word.  The block/tx metadata required by the
base-params extractor may be absent (spec 4.1 provides a failure path for
exactly that), hence the `Option` fields. -/
structure Log where
  address : String
  blockNumber : Nat
  blockHash : Option String
  txHash : Option String
  txIndex : Nat
  logIndex : Option Nat
  timestamp : Nat
  topics : List String
  data : List String
deriving Repr, DecidableEq

/-- The canonical per-event envelope attached to every decoded event
(spec section 3). -/
structure BaseEventParams where
  address : String
  block : Nat
  blockHash : String
  txHash : String
  txIndex : Nat
  logIndex : Nat
  timestamp : Nat
deriving Repr, DecidableEq

/-- Modelled from the spec: the base-params extractor `parseEvent` lives in
`@/events/parser`, which is not among the sources.  Spec 4.1: it fails with
`MalformedLogError` when required metadata (block hash, tx hash, log index)
is absent, aborting processing of that single log only; otherwise it returns
the envelope. -/
def parseEvent (log : Log) : Option BaseEventParams :=
  match log.blockHash, log.txHash, log.logIndex with
  | some bh, some th, some li =>
    some { address := log.address, block := log.blockNumber, blockHash := bh,
           txHash := th, txIndex := log.txIndex, logIndex := li,
           timestamp := log.timestamp }
  | _, _, _ => none

/-- Value of a hexadecimal digit character. -/
def hexDigitVal (c : Char) : Nat :=
  if c.isDigit then c.toNat - 48
  else if c.isLower then c.toNat - 87
  else c.toNat - 55

/-- Numeric value of a 0x-prefixed hexadecimal word, as ethers reads a
`uint256` out of a topic or data word into a BigNumber. -/
def hexToNat (s : String) : Nat :=
  let cs := if s.data.take 2 = "0x".data then s.data.drop 2 else s.data
  cs.foldl (fun acc c => acc * 16 + hexDigitVal c) 0

/-- JS `String.prototype.toLowerCase` as the code applies it to hex
address strings: ASCII lowercasing, character by character. -/
def toLowerCase (s : String) : String := String.mk (s.data.map Char.toLower)

/-- Arguments of a decoded `Transfer` log: the two address words and the
`tokenId` word (decimal rendering happens at use site, as in the code). -/
structure TransferArgs where
  «from» : String
  «to» : String
  tokenIdWord : String
deriving Repr, DecidableEq

/-- Arguments of a decoded `ApprovalForAll` log. -/
structure ApprovalForAllArgs where
  owner : String
  operator : String
  approved : Bool
deriving Repr, DecidableEq

/-- Modelled from the spec: ethers `Interface.parseLog` (external library)
against the primary ABI entry
`Transfer(address indexed from, address indexed to, uint256 indexed tokenId)`.
All three parameters are indexed, so a structurally matching log carries
exactly four topics (topic0 plus three argument words); any structural
mismatch throws, modelled as `none` (spec 4.2, 6). -/
def abiParseLogTransfer (log : Log) : Option TransferArgs :=
  match log.topics with
  | [t0, f, t, idWord] =>
    if t0 = transferTopic then some { «from» := f, «to» := t, tokenIdWord := idWord }
    else none
  | _ => none

/-- Modelled from the spec: ethers `Interface.parseLog` against the
non-standard fallback ABI entry
`Transfer(address indexed from, address indexed to, uint256 tokenId)`:
`tokenId` is not indexed, so a matching log carries exactly three topics and
the `tokenId` word is read from the data payload (spec 4.2, 6). -/
def nonStandardAbiParseLogTransfer (log : Log) : Option TransferArgs :=
  match log.topics, log.data.head? with
  | [t0, f, t], some w =>
    if t0 = transferTopic then some { «from» := f, «to» := t, tokenIdWord := w }
    else none
  | _, _ => none

/-- The nested try/catch of the Transfer case: try the primary ABI first and
fall back to the non-standard ABI only when the primary attempt throws. -/
def parseTransferLog (log : Log) : Option TransferArgs :=
  match abiParseLogTransfer log with
  | some parsedLog => some parsedLog
  | none => nonStandardAbiParseLogTransfer log

/-- Modelled from the spec: ethers `Interface.parseLog` against
`ApprovalForAll(address indexed owner, address indexed operator, bool approved)`:
`owner` and `operator` are indexed (three topics), `approved` is read from
the data payload (spec 4.2, 6). -/
def abiParseLogApprovalForAll (log : Log) : Option ApprovalForAllArgs :=
  match log.topics, log.data.head? with
  | [t0, o, op], some w =>
    if t0 = approvalForAllTopic then
      some { owner := o, operator := op, approved := decide (hexToNat w ≠ 0) }
    else none
  | _, _ => none

/-- A decoded ownership movement (spec section 3). -/
structure NftTransferEvent where
  tokenId : String
  «from» : String
  «to» : String
  amount : String
  baseParams : BaseEventParams
deriving Repr, DecidableEq

/-- A decoded blanket approval grant/revocation (spec section 3). -/
structure NftApprovalEvent where
  owner : String
  operator : String
  approved : Bool
  baseParams : BaseEventParams
deriving Repr, DecidableEq

/-- Outbound fan-out unit for the maker-update queue (spec section 3);
the optional fields are present only where the code sets them. -/
structure MakerInfo where
  context : String
  side : String
  maker : String
  contract : String
  tokenId : Option String
  operator : Option String
  approved : Option Bool
  checkApproval : Option Bool
deriving Repr, DecidableEq

/-- The mutable state of one `syncCallback` invocation: the three arrays
declared before the loop, plus a count of `logger.error` calls made by the
per-log catch handler. -/
structure SyncAcc where
  approvalEvents : List NftApprovalEvent
  transferEvents : List NftTransferEvent
  makerInfos : List MakerInfo
  failures : Nat
deriving Repr, DecidableEq

/-- The accumulator at the top of `syncCallback`: three empty arrays, no
logged failures. -/
def emptyAcc : SyncAcc := { approvalEvents := [], transferEvents := [], makerInfos := [], failures := 0 }

/-- The body of the `for (const log of logs)` loop of `syncCallback`: extract
base params, switch on `topics[0]`, decode, push the per-kind events and
maker infos; any throw inside the try block is caught and logged (one
failure), leaving the arrays as they were at that point.  Since every
throwing operation of a branch precedes that branch's pushes in the source,
a caught throw leaves the arrays exactly as they were before the log. -/
def processLog (log : Log) (acc : SyncAcc) : SyncAcc :=
  match parseEvent log with
  | none => { acc with failures := acc.failures + 1 }
  | some baseParams =>
    let context := baseParams.txHash ++ "-" ++ toString baseParams.logIndex
    if log.topics.head? = some transferTopic then
      match parseTransferLog log with
      | none => { acc with failures := acc.failures + 1 }
      | some parsedLog =>
        let f := toLowerCase parsedLog.«from»
        let t := toLowerCase parsedLog.«to»
        let tokenId := toString (hexToNat parsedLog.tokenIdWord)
        let amount := "1"
        { acc with
          transferEvents := acc.transferEvents ++
            [{ tokenId := tokenId, «from» := f, «to» := t, amount := amount,
               baseParams := baseParams }],
          makerInfos := acc.makerInfos ++
            [{ context := context, side := "sell", maker := f,
               contract := baseParams.address, tokenId := some tokenId,
               operator := none, approved := none, checkApproval := none },
             { context := context, side := "sell", maker := t,
               contract := baseParams.address, tokenId := some tokenId,
               operator := none, approved := none, checkApproval := none }] }
    else if log.topics.head? = some approvalForAllTopic then
      match abiParseLogApprovalForAll log with
      | none => { acc with failures := acc.failures + 1 }
      | some parsedLog =>
        let owner := toLowerCase parsedLog.owner
        let operator := toLowerCase parsedLog.operator
        let approved := parsedLog.approved
        { acc with
          approvalEvents := acc.approvalEvents ++
            [{ owner := owner, operator := operator, approved := approved,
               baseParams := baseParams }],
          makerInfos := acc.makerInfos ++
            [{ context := context, side := "sell", maker := owner,
               contract := baseParams.address, tokenId := none,
               operator := some operator, approved := some approved,
               checkApproval := some true }] }
    else acc

/-- The configuration toggle the enqueue step consults. -/
structure Config where
  acceptOrders : Bool
deriving Repr, DecidableEq

/-- The accumulator after the whole loop of `syncCallback` has run. -/
def syncAccumulate (logs : List Log) : SyncAcc :=
  logs.foldl (fun a l => processLog l a) emptyAcc

/-- Observable outcome of one `syncCallback` invocation: the batches handed
to the event store, whether the maker-update enqueue was invoked, what it
was handed, and how many per-log failures were logged. -/
structure SyncResult where
  storedApprovalEvents : List NftApprovalEvent
  storedTransferEvents : List NftTransferEvent
  enqueueCalled : Bool
  enqueuedMakerInfos : List MakerInfo
  failures : Nat
deriving Repr, DecidableEq

/-- `syncCallback`: run the loop over the batch, persist both event batches,
and invoke the maker-update enqueue exactly when `backfill` is falsy and the
accept-orders toggle is on. -/
def syncCallback (cfg : Config) (logs : List Log) (backfill : Bool) : SyncResult :=
  let acc := syncAccumulate logs
  { storedApprovalEvents := acc.approvalEvents,
    storedTransferEvents := acc.transferEvents,
    enqueueCalled := !backfill && cfg.acceptOrders,
    enqueuedMakerInfos := if !backfill && cfg.acceptOrders then acc.makerInfos else [],
    failures := acc.failures }

/-- Whether processing a log throws inside the try block of `syncCallback`
(and is therefore caught and logged): base-params extraction fails, or the
Transfer decode fails on both ABI tables, or the ApprovalForAll decode
fails. -/
def logFails (log : Log) : Bool :=
  (parseEvent log).isNone ||
    (log.topics.head? = some transferTopic && (parseTransferLog log).isNone) ||
    (log.topics.head? = some approvalForAllTopic && (abiParseLogApprovalForAll log).isNone)

/-- Whether a log decodes into exactly one typed event (a Transfer or an
ApprovalForAll that both extracts base params and parses). -/
def decodesEvent (log : Log) : Bool :=
  (parseEvent log).isSome &&
    ((log.topics.head? = some transferTopic && (parseTransferLog log).isSome) ||
     (log.topics.head? = some approvalForAllTopic && (abiParseLogApprovalForAll log).isSome))

/-- The dedup key of every persisted event row: the
`("block_hash", "tx_hash", "log_index")` primary key declared by the
`cancel_events_pk` constraint of the cancels migration and mirrored across
event kinds (spec 3, 4.3, 6). -/
structure EventKey where
  blockHash : String
  txHash : String
  logIndex : Nat
deriving Repr, DecidableEq

/-- A row of the `cancel_events` table as created by the migration. -/
structure CancelRow where
  address : String
  block : Nat
  blockHash : String
  txHash : String
  txIndex : Nat
  logIndex : Nat
  timestamp : Nat
  orderKind : String
  orderId : String
deriving Repr, DecidableEq

/-- The primary key of a `cancel_events` row. -/
def CancelRow.key (r : CancelRow) : EventKey :=
  { blockHash := r.blockHash, txHash := r.txHash, logIndex := r.logIndex }

/-- Modelled from the spec: the event store's `add` operation (its
implementation lives in `@/events/common`, not among the sources) upserts by
the dedup key; re-adding an already-stored event is a no-op with respect to
visible state (spec 4.3), which together with the `cancel_events_pk` primary
key makes a second delivery of the same log leave the table unchanged. -/
def addCancelEvent (rows : List CancelRow) (e : CancelRow) : List CancelRow :=
  if rows.any (fun r => r.key = e.key) then rows else rows ++ [e]

/-- Number of stored rows carrying a given primary key. -/
def countKey (rows : List CancelRow) (k : EventKey) : Nat :=
  (rows.filter (fun r => r.key = k)).length

/-- The table invariant enforced by the `cancel_events_pk` primary key
constraint: at most one row per key. -/
def keyUnique (rows : List CancelRow) : Prop :=
  ∀ k : EventKey, countKey rows k ≤ 1

/-- The two event tables owned by the ERC-721 adapter. -/
structure EventStore where
  approvalEvents : List NftApprovalEvent
  transferEvents : List NftTransferEvent
deriving Repr, DecidableEq

/-- Modelled from the spec: `removeNftApprovalEvents` (in `@/events/common`,
not among the sources) deletes every stored NFT-approval event whose
`baseParams.blockHash` equals the given hash (spec 4.3). -/
def removeNftApprovalEvents (rows : List NftApprovalEvent) (blockHash : String) :
    List NftApprovalEvent :=
  rows.filter (fun r => r.baseParams.blockHash ≠ blockHash)

/-- Modelled from the spec: `removeNftTransferEvents` (in `@/events/common`,
not among the sources) deletes every stored NFT-transfer event whose
`baseParams.blockHash` equals the given hash (spec 4.3). -/
def removeNftTransferEvents (rows : List NftTransferEvent) (blockHash : String) :
    List NftTransferEvent :=
  rows.filter (fun r => r.baseParams.blockHash ≠ blockHash)

/-- `fixCallback`: on reorg, remove both of the adapter's event kinds for
the orphaned block hash. -/
def fixCallback (store : EventStore) (blockHash : String) : EventStore :=
  { approvalEvents := removeNftApprovalEvents store.approvalEvents blockHash,
    transferEvents := removeNftTransferEvents store.transferEvents blockHash }

/-- The log filter handed to the provider: the address list to scope by,
and an optional topic list (never set by this adapter). -/
structure Filter where
  address : List String
  topics : Option (List String)
deriving Repr, DecidableEq

/-- The uniform adapter interface: a filter plus the two callbacks. -/
structure ContractInfo where
  filter : Filter
  syncCallback : Config → List Log → Bool → SyncResult
  fixCallback : EventStore → String → EventStore

/-- `getContractInfo`: build the ERC-721 adapter for a list of contract
addresses (defaulting to the empty list, as in the source). -/
def getContractInfo (address : List String := []) : ContractInfo :=
  { filter := { address := address, topics := none },
    syncCallback := fun cfg logs backfill => syncCallback cfg logs backfill,
    fixCallback := fun store blockHash => fixCallback store blockHash }

/-! ### Helper lemmas about one loop iteration -/

lemma approval_ne_transfer : approvalForAllTopic ≠ transferTopic := by decide

lemma processLog_base_none (log : Log) (acc : SyncAcc) (h : parseEvent log = none) :
    processLog log acc = { acc with failures := acc.failures + 1 } := by
  simp [processLog, h]

lemma processLog_transfer_fail (log : Log) (acc : SyncAcc) (bp : BaseEventParams)
    (hb : parseEvent log = some bp) (ht : log.topics.head? = some transferTopic)
    (hp : parseTransferLog log = none) :
    processLog log acc = { acc with failures := acc.failures + 1 } := by
  simp [processLog, hb, ht, hp]

lemma processLog_transfer_ok (log : Log) (acc : SyncAcc) (bp : BaseEventParams)
    (args : TransferArgs)
    (hb : parseEvent log = some bp) (ht : log.topics.head? = some transferTopic)
    (hp : parseTransferLog log = some args) :
    processLog log acc =
      { acc with
        transferEvents := acc.transferEvents ++
          [{ tokenId := toString (hexToNat args.tokenIdWord),
             «from» := toLowerCase args.«from», «to» := toLowerCase args.«to»,
             amount := "1", baseParams := bp }],
        makerInfos := acc.makerInfos ++
          [{ context := bp.txHash ++ "-" ++ toString bp.logIndex, side := "sell",
             maker := toLowerCase args.«from», contract := bp.address,
             tokenId := some (toString (hexToNat args.tokenIdWord)),
             operator := none, approved := none, checkApproval := none },
           { context := bp.txHash ++ "-" ++ toString bp.logIndex, side := "sell",
             maker := toLowerCase args.«to», contract := bp.address,
             tokenId := some (toString (hexToNat args.tokenIdWord)),
             operator := none, approved := none, checkApproval := none }] } := by
  simp [processLog, hb, ht, hp]

lemma processLog_approval_fail (log : Log) (acc : SyncAcc) (bp : BaseEventParams)
    (hb : parseEvent log = some bp) (ht : log.topics.head? = some approvalForAllTopic)
    (hp : abiParseLogApprovalForAll log = none) :
    processLog log acc = { acc with failures := acc.failures + 1 } := by
  simp [processLog, hb, ht, hp, approval_ne_transfer]

lemma processLog_approval_ok (log : Log) (acc : SyncAcc) (bp : BaseEventParams)
    (args : ApprovalForAllArgs)
    (hb : parseEvent log = some bp) (ht : log.topics.head? = some approvalForAllTopic)
    (hp : abiParseLogApprovalForAll log = some args) :
    processLog log acc =
      { acc with
        approvalEvents := acc.approvalEvents ++
          [{ owner := toLowerCase args.owner, operator := toLowerCase args.operator,
             approved := args.approved, baseParams := bp }],
        makerInfos := acc.makerInfos ++
          [{ context := bp.txHash ++ "-" ++ toString bp.logIndex, side := "sell",
             maker := toLowerCase args.owner, contract := bp.address,
             tokenId := none, operator := some (toLowerCase args.operator),
             approved := some args.approved, checkApproval := some true }] } := by
  simp [processLog, hb, ht, hp, approval_ne_transfer]

lemma processLog_unknown (log : Log) (acc : SyncAcc) (bp : BaseEventParams)
    (hb : parseEvent log = some bp)
    (ht : log.topics.head? ≠ some transferTopic)
    (ha : log.topics.head? ≠ some approvalForAllTopic) :
    processLog log acc = acc := by
  simp [processLog, hb, ht, ha]

/-! ### Decomposing the loop into per-log contributions -/

/-- Sequential composition of two accumulator deltas: run the second from
the end state of the first. -/
def combine (a b : SyncAcc) : SyncAcc :=
  { approvalEvents := a.approvalEvents ++ b.approvalEvents,
    transferEvents := a.transferEvents ++ b.transferEvents,
    makerInfos := a.makerInfos ++ b.makerInfos,
    failures := a.failures + b.failures }

lemma combine_emptyAcc_left (a : SyncAcc) : combine emptyAcc a = a := by
  simp [combine, emptyAcc]

lemma combine_assoc (a b c : SyncAcc) :
    combine (combine a b) c = combine a (combine b c) := by
  simp [combine, List.append_assoc, Nat.add_assoc]

lemma processLog_combine (log : Log) (acc : SyncAcc) :
    processLog log acc = combine acc (processLog log emptyAcc) := by
  rcases hb : parseEvent log with _ | bp
  · rw [processLog_base_none log acc hb, processLog_base_none log emptyAcc hb]
    simp [combine, emptyAcc]
  · by_cases ht : log.topics.head? = some transferTopic
    · rcases hp : parseTransferLog log with _ | args
      · rw [processLog_transfer_fail log acc bp hb ht hp,
          processLog_transfer_fail log emptyAcc bp hb ht hp]
        simp [combine, emptyAcc]
      · rw [processLog_transfer_ok log acc bp args hb ht hp,
          processLog_transfer_ok log emptyAcc bp args hb ht hp]
        simp [combine, emptyAcc]
    · by_cases ha : log.topics.head? = some approvalForAllTopic
      · rcases hp : abiParseLogApprovalForAll log with _ | args
        · rw [processLog_approval_fail log acc bp hb ha hp,
            processLog_approval_fail log emptyAcc bp hb ha hp]
          simp [combine, emptyAcc]
        · rw [processLog_approval_ok log acc bp args hb ha hp,
            processLog_approval_ok log emptyAcc bp args hb ha hp]
          simp [combine, emptyAcc]
      · rw [processLog_unknown log acc bp hb ht ha,
          processLog_unknown log emptyAcc bp hb ht ha]
        simp [combine, emptyAcc]

lemma foldl_processLog_combine (logs : List Log) (acc : SyncAcc) :
    logs.foldl (fun a l => processLog l a) acc = combine acc (syncAccumulate logs) := by
  induction logs generalizing acc with
  | nil => simp [syncAccumulate, combine, emptyAcc]
  | cons l ls ih =>
    have hcons : syncAccumulate (l :: ls) =
        combine (processLog l emptyAcc) (syncAccumulate ls) := by
      unfold syncAccumulate
      rw [List.foldl_cons, ih (processLog l emptyAcc), processLog_combine l emptyAcc,
        combine_emptyAcc_left]
      rfl
    rw [List.foldl_cons, ih (processLog l acc), hcons, processLog_combine l acc,
      combine_assoc]

lemma syncAccumulate_cons (l : Log) (ls : List Log) :
    syncAccumulate (l :: ls) = combine (processLog l emptyAcc) (syncAccumulate ls) := by
  unfold syncAccumulate
  rw [List.foldl_cons, foldl_processLog_combine ls (processLog l emptyAcc),
    processLog_combine l emptyAcc, combine_emptyAcc_left]
  rfl

lemma transfer_ne_approval : transferTopic ≠ approvalForAllTopic := by decide

/-- Exhaustive description of what one loop iteration contributes, starting
from the empty accumulator: a caught throw contributes one logged failure
and nothing else; an unrecognized topic contributes nothing; a decoded log
contributes exactly one typed event (with amount "1" when it is a
transfer). -/
lemma processLog_emptyAcc_cases (log : Log) :
    (logFails log = true ∧ decodesEvent log = false ∧
      processLog log emptyAcc = { emptyAcc with failures := 1 }) ∨
    (logFails log = false ∧ decodesEvent log = false ∧
      processLog log emptyAcc = emptyAcc) ∨
    (logFails log = false ∧ decodesEvent log = true ∧
      (processLog log emptyAcc).failures = 0 ∧
      (processLog log emptyAcc).transferEvents.length +
        (processLog log emptyAcc).approvalEvents.length = 1 ∧
      (∀ e ∈ (processLog log emptyAcc).transferEvents, e.amount = "1")) := by
  rcases hb : parseEvent log with _ | bp
  · refine Or.inl ⟨?_, ?_, ?_⟩
    · simp [logFails, hb]
    · simp [decodesEvent, hb]
    · rw [processLog_base_none log emptyAcc hb]
      simp [emptyAcc]
  · by_cases ht : log.topics.head? = some transferTopic
    · rcases hp : parseTransferLog log with _ | args
      · refine Or.inl ⟨?_, ?_, ?_⟩
        · simp [logFails, hb, ht, hp]
        · simp [decodesEvent, hb, ht, hp, transfer_ne_approval]
        · rw [processLog_transfer_fail log emptyAcc bp hb ht hp]
          simp [emptyAcc]
      · refine Or.inr (Or.inr ⟨?_, ?_, ?_, ?_, ?_⟩)
        · simp [logFails, hb, ht, hp, transfer_ne_approval]
        · simp [decodesEvent, hb, ht, hp]
        · rw [processLog_transfer_ok log emptyAcc bp args hb ht hp]
          rfl
        · rw [processLog_transfer_ok log emptyAcc bp args hb ht hp]
          rfl
        · rw [processLog_transfer_ok log emptyAcc bp args hb ht hp]
          intro e he
          simp only [emptyAcc, List.nil_append, List.mem_singleton] at he
          rw [he]
    · by_cases ha : log.topics.head? = some approvalForAllTopic
      · rcases hp : abiParseLogApprovalForAll log with _ | args
        · refine Or.inl ⟨?_, ?_, ?_⟩
          · simp [logFails, hb, ht, ha, hp, approval_ne_transfer]
          · simp [decodesEvent, hb, ht, ha, hp, approval_ne_transfer]
          · rw [processLog_approval_fail log emptyAcc bp hb ha hp]
            simp [emptyAcc]
        · refine Or.inr (Or.inr ⟨?_, ?_, ?_, ?_, ?_⟩)
          · simp [logFails, hb, ht, ha, hp, approval_ne_transfer]
          · simp [decodesEvent, hb, ht, ha, hp, approval_ne_transfer]
          · rw [processLog_approval_ok log emptyAcc bp args hb ha hp]
            rfl
          · rw [processLog_approval_ok log emptyAcc bp args hb ha hp]
            rfl
          · rw [processLog_approval_ok log emptyAcc bp args hb ha hp]
            intro e he
            simp only [emptyAcc] at he
            exact absurd he (List.not_mem_nil e)
      · refine Or.inr (Or.inl ⟨?_, ?_, ?_⟩)
        · simp [logFails, hb, ht, ha]
        · simp [decodesEvent, hb, ht, ha]
        · rw [processLog_unknown log emptyAcc bp hb ht ha]

lemma contribution_of_logFails (log : Log) (h : logFails log = true) :
    processLog log emptyAcc = { emptyAcc with failures := 1 } := by
  rcases processLog_emptyAcc_cases log with ⟨_, _, h3⟩ | ⟨h1, _, _⟩ | ⟨h1, _, _⟩
  · exact h3
  · rw [h] at h1; exact absurd h1 (by simp)
  · rw [h] at h1; exact absurd h1 (by simp)

lemma contribution_failures (log : Log) :
    (processLog log emptyAcc).failures = if logFails log then 1 else 0 := by
  rcases processLog_emptyAcc_cases log with ⟨h1, _, h3⟩ | ⟨h1, _, h3⟩ | ⟨h1, _, h3, _, _⟩
  · rw [h1, h3]; rfl
  · rw [h1, h3]; rfl
  · rw [h1, h3]; rfl

lemma contribution_events (log : Log) :
    (processLog log emptyAcc).transferEvents.length +
      (processLog log emptyAcc).approvalEvents.length =
      if decodesEvent log then 1 else 0 := by
  rcases processLog_emptyAcc_cases log with ⟨_, h2, h3⟩ | ⟨_, h2, h3⟩ | ⟨_, h2, _, h4, _⟩
  · rw [h2, h3]; rfl
  · rw [h2, h3]; rfl
  · rw [h2, h4]; rfl

lemma contribution_amount (log : Log) :
    ∀ e ∈ (processLog log emptyAcc).transferEvents, e.amount = "1" := by
  rcases processLog_emptyAcc_cases log with ⟨_, _, h3⟩ | ⟨_, _, h3⟩ | ⟨_, _, _, _, h5⟩
  · rw [h3]; intro e he; exact absurd he (List.not_mem_nil e)
  · rw [h3]; intro e he; exact absurd he (List.not_mem_nil e)
  · exact h5

lemma decodesEvent_eq_false_of_logFails (log : Log) (h : logFails log = true) :
    decodesEvent log = false := by
  rcases processLog_emptyAcc_cases log with ⟨_, h2, _⟩ | ⟨h1, _, _⟩ | ⟨h1, _, _⟩
  · exact h2
  · rw [h] at h1; exact absurd h1 (by simp)
  · rw [h] at h1; exact absurd h1 (by simp)

/-! ### Batch-level counting lemmas -/

lemma syncAccumulate_failures (logs : List Log) :
    (syncAccumulate logs).failures = logs.countP logFails := by
  induction logs with
  | nil => simp [syncAccumulate, emptyAcc]
  | cons l ls ih =>
    rw [syncAccumulate_cons, List.countP_cons]
    simp only [combine, ih, contribution_failures]
    omega

lemma syncAccumulate_events (logs : List Log) :
    (syncAccumulate logs).transferEvents.length +
      (syncAccumulate logs).approvalEvents.length = logs.countP decodesEvent := by
  induction logs with
  | nil => simp [syncAccumulate, emptyAcc]
  | cons l ls ih =>
    rw [syncAccumulate_cons, List.countP_cons]
    simp only [combine, List.length_append]
    have := contribution_events l
    omega

lemma syncAccumulate_amount (logs : List Log) :
    ∀ e ∈ (syncAccumulate logs).transferEvents, e.amount = "1" := by
  induction logs with
  | nil => simp [syncAccumulate, emptyAcc]
  | cons l ls ih =>
    rw [syncAccumulate_cons]
    intro e he
    rcases List.mem_append.mp he with h | h
    · exact contribution_amount l e h
    · exact ih e h

/-! ### Concrete sample inputs used by witnesses and counterexamples -/

/-- Build a log with complete block/tx metadata. -/
def mkLog (addr : String) (bn : Nat) (bh th : String) (txi li ts : Nat)
    (topics data : List String) : Log :=
  { address := addr, blockNumber := bn, blockHash := some bh, txHash := some th,
    txIndex := txi, logIndex := some li, timestamp := ts, topics := topics,
    data := data }

/-- A standard `Transfer` log: four topics, empty data. -/
def sampleTransferLog : Log :=
  mkLog "0xc" 7 "0xb" "0xt" 0 2 99 [transferTopic, "0xA", "0xB", "0x05"] []

/-- An `ApprovalForAll` log: three topics, the `approved` flag in data. -/
def sampleApprovalLog : Log :=
  mkLog "0xc" 7 "0xb" "0xt" 0 3 99 [approvalForAllTopic, "0xA", "0xB"] ["0x01"]

/-- A malformed `Transfer` log: the topic matches but the argument topics are
missing, so both ABI tables fail to parse it. -/
def sampleBadLog : Log :=
  mkLog "0xc" 7 "0xb" "0xt" 0 4 99 [transferTopic] []

/-- A log with complete metadata whose topic matches no ABI entry. -/
def sampleUnknownLog : Log :=
  mkLog "0xc" 7 "0xb" "0xt" 0 5 99 ["0xdead"] []

/-- A log with an unrecognized topic that is also missing its block/tx
metadata, so base-params extraction fails on it. -/
def sampleNoMetaLog : Log :=
  { address := "0xc", blockNumber := 7, blockHash := none, txHash := none,
    txIndex := 0, logIndex := none, timestamp := 0, topics := ["0xdead"],
    data := [] }

/-- The transfer event decoded from `sampleTransferLog`. -/
def sampleTransferEvent : NftTransferEvent :=
  { tokenId := "5", «from» := "0xa", «to» := "0xb", amount := "1",
    baseParams := { address := "0xc", block := 7, blockHash := "0xb",
                    txHash := "0xt", txIndex := 0, logIndex := 2,
                    timestamp := 99 } }

/-- The approval event decoded from `sampleApprovalLog`. -/
def sampleApprovalEvent : NftApprovalEvent :=
  { owner := "0xa", operator := "0xb", approved := true,
    baseParams := { address := "0xc", block := 7, blockHash := "0xb",
                    txHash := "0xt", txIndex := 0, logIndex := 3,
                    timestamp := 99 } }

/-- A concrete `cancel_events` row. -/
def sampleCancelRow : CancelRow :=
  { address := "0xc", block := 7, blockHash := "0xb", txHash := "0xt",
    txIndex := 0, logIndex := 2, timestamp := 99, orderKind := "wyvern-v2",
    orderId := "0xabc" }

/-! ### Claim theorems -/

/-- C1: for every list of logs, `syncCallback` invokes the maker-update
enqueue if and only if the backfill flag is false and the accept-orders
toggle is enabled, and when it does it hands over exactly the accumulated
MakerInfo entries; in particular `syncCallback` with `backfill = true` never
invokes the enqueue, regardless of decoded content. -/
theorem syncCallback_enqueue_iff (cfg : Config) (logs : List Log) (backfill : Bool) :
    ((syncCallback cfg logs backfill).enqueueCalled = true ↔
      backfill = false ∧ cfg.acceptOrders = true)
    ∧ ((syncCallback cfg logs backfill).enqueueCalled = true →
        (syncCallback cfg logs backfill).enqueuedMakerInfos =
          (syncAccumulate logs).makerInfos)
    ∧ (syncCallback cfg logs true).enqueueCalled = false := by
  rcases cfg with ⟨a⟩
  cases backfill <;> cases a <;> simp [syncCallback]

/-- Witness for C1: with the toggle on, a live call enqueues; a backfill
call or a call with the toggle off does not. -/
theorem syncCallback_enqueue_iff_witness :
    (syncCallback { acceptOrders := true } [sampleTransferLog] false).enqueueCalled = true
    ∧ (syncCallback { acceptOrders := true } [sampleTransferLog] true).enqueueCalled = false
    ∧ (syncCallback { acceptOrders := false } [sampleTransferLog] false).enqueueCalled = false := by
  refine ⟨?_,
    (syncCallback_enqueue_iff { acceptOrders := true } [sampleTransferLog] false).2.2, ?_⟩
  · exact (syncCallback_enqueue_iff { acceptOrders := true }
      [sampleTransferLog] false).1.mpr ⟨rfl, rfl⟩
  · have h := (syncCallback_enqueue_iff { acceptOrders := false }
      [sampleTransferLog] false).1
    simp at h
    exact h

/-- C2: a successfully decoded Transfer log contributes exactly two
MakerInfo entries — one with maker the (lowercased) sender and one with
maker the receiver, both tagged side "sell" — and a successfully decoded
ApprovalForAll log contributes exactly one MakerInfo entry, with maker the
owner, carrying operator, approved and checkApproval set to true. -/
theorem syncCallback_fanout_cardinality (log : Log) (acc : SyncAcc) :
    (∀ bp args, parseEvent log = some bp → log.topics.head? = some transferTopic →
      parseTransferLog log = some args →
      (processLog log acc).makerInfos = acc.makerInfos ++
        [{ context := bp.txHash ++ "-" ++ toString bp.logIndex, side := "sell",
           maker := toLowerCase args.«from», contract := bp.address,
           tokenId := some (toString (hexToNat args.tokenIdWord)),
           operator := none, approved := none, checkApproval := none },
         { context := bp.txHash ++ "-" ++ toString bp.logIndex, side := "sell",
           maker := toLowerCase args.«to», contract := bp.address,
           tokenId := some (toString (hexToNat args.tokenIdWord)),
           operator := none, approved := none, checkApproval := none }])
    ∧ (∀ bp args, parseEvent log = some bp →
      log.topics.head? = some approvalForAllTopic →
      abiParseLogApprovalForAll log = some args →
      (processLog log acc).makerInfos = acc.makerInfos ++
        [{ context := bp.txHash ++ "-" ++ toString bp.logIndex, side := "sell",
           maker := toLowerCase args.owner, contract := bp.address, tokenId := none,
           operator := some (toLowerCase args.operator),
           approved := some args.approved, checkApproval := some true }]) := by
  constructor
  · intro bp args hb ht hp
    rw [processLog_transfer_ok log acc bp args hb ht hp]
  · intro bp args hb ha hp
    rw [processLog_approval_ok log acc bp args hb ha hp]

/-- Witness for C2: the sample Transfer log yields exactly the sender and
receiver sell-side entries, and the sample ApprovalForAll log yields exactly
the owner entry with checkApproval set. -/
theorem syncCallback_fanout_cardinality_witness :
    (processLog sampleTransferLog emptyAcc).makerInfos =
      [{ context := "0xt-2", side := "sell", maker := "0xa", contract := "0xc",
         tokenId := some "5", operator := none, approved := none,
         checkApproval := none },
       { context := "0xt-2", side := "sell", maker := "0xb", contract := "0xc",
         tokenId := some "5", operator := none, approved := none,
         checkApproval := none }]
    ∧ (processLog sampleApprovalLog emptyAcc).makerInfos =
      [{ context := "0xt-3", side := "sell", maker := "0xa", contract := "0xc",
         tokenId := none, operator := some "0xb", approved := some true,
         checkApproval := some true }] := by
  constructor
  · rw [(syncCallback_fanout_cardinality sampleTransferLog emptyAcc).1
      { address := "0xc", block := 7, blockHash := "0xb", txHash := "0xt",
        txIndex := 0, logIndex := 2, timestamp := 99 }
      { «from» := "0xA", «to» := "0xB", tokenIdWord := "0x05" }
      (by decide) (by decide) (by decide)]
    decide
  · rw [(syncCallback_fanout_cardinality sampleApprovalLog emptyAcc).2
      { address := "0xc", block := 7, blockHash := "0xb", txHash := "0xt",
        txIndex := 0, logIndex := 3, timestamp := 99 }
      { owner := "0xA", operator := "0xB", approved := true }
      (by decide) (by decide) (by decide)]
    decide

lemma countP_decodes_of (logs : List Log)
    (h2 : ∀ l ∈ logs, logFails l = false → decodesEvent l = true) :
    logs.countP decodesEvent = logs.length - logs.countP logFails := by
  induction logs with
  | nil => simp
  | cons l ls ih =>
    have htail : ∀ x ∈ ls, logFails x = false → decodesEvent x = true :=
      fun x hx => h2 x (List.mem_cons_of_mem l hx)
    have hle : ls.countP logFails ≤ ls.length := List.countP_le_length (p := logFails)
    rw [List.countP_cons, List.countP_cons, List.length_cons, ih htail]
    cases hf : logFails l with
    | true =>
      have hd := decodesEvent_eq_false_of_logFails l hf
      simp [hd]
      try omega
    | false =>
      have hd := h2 l (List.mem_cons_self l ls) hf
      simp [hd]
      try omega

/-- C3: in a batch where exactly one log is malformed (its processing
throws) and every other log decodes into an event, `syncCallback` persists
`N - 1` events across its two event kinds and logs exactly one failure; the
bad log does not abort the batch. -/
theorem syncCallback_partial_failure_tolerance (cfg : Config) (logs : List Log)
    (backfill : Bool)
    (h1 : logs.countP logFails = 1)
    (h2 : ∀ l ∈ logs, logFails l = false → decodesEvent l = true) :
    (syncCallback cfg logs backfill).storedTransferEvents.length +
      (syncCallback cfg logs backfill).storedApprovalEvents.length =
        logs.length - 1
    ∧ (syncCallback cfg logs backfill).failures = 1 := by
  constructor
  · show (syncAccumulate logs).transferEvents.length +
      (syncAccumulate logs).approvalEvents.length = logs.length - 1
    rw [syncAccumulate_events logs, countP_decodes_of logs h2, h1]
  · show (syncAccumulate logs).failures = 1
    rw [syncAccumulate_failures logs, h1]

/-- Witness for C3: a two-log batch whose second log matches the Transfer
topic but has no argument topics yields one persisted event and one logged
failure. -/
theorem syncCallback_partial_failure_tolerance_witness :
    ([sampleTransferLog, sampleBadLog].countP logFails = 1
      ∧ ∀ l ∈ [sampleTransferLog, sampleBadLog],
          logFails l = false → decodesEvent l = true)
    ∧ (syncCallback { acceptOrders := true } [sampleTransferLog, sampleBadLog]
        false).storedTransferEvents.length +
      (syncCallback { acceptOrders := true } [sampleTransferLog, sampleBadLog]
        false).storedApprovalEvents.length = 1
    ∧ (syncCallback { acceptOrders := true } [sampleTransferLog, sampleBadLog]
        false).failures = 1 := by
  refine ⟨⟨by decide, by decide⟩, ?_, ?_⟩
  · have h := syncCallback_partial_failure_tolerance { acceptOrders := true }
      [sampleTransferLog, sampleBadLog] false (by decide) (by decide)
    simpa using h.1
  · exact (syncCallback_partial_failure_tolerance { acceptOrders := true }
      [sampleTransferLog, sampleBadLog] false (by decide) (by decide)).2

/-- C4: a `Transfer` log whose `tokenId` topic is not indexed (three topics,
token id in data) fails the primary ABI parse, succeeds via the non-standard
fallback ABI, and yields exactly the same decoded output as a standard log
carrying the same sender, receiver and token id. -/
theorem transfer_fallback_decode (addr : String) (bn : Nat) (bh th : String)
    (txi li ts : Nat) (f t w : String) (acc : SyncAcc) :
    abiParseLogTransfer (mkLog addr bn bh th txi li ts [transferTopic, f, t] [w]) = none
    ∧ parseTransferLog (mkLog addr bn bh th txi li ts [transferTopic, f, t] [w]) =
        some { «from» := f, «to» := t, tokenIdWord := w }
    ∧ processLog (mkLog addr bn bh th txi li ts [transferTopic, f, t] [w]) acc =
        processLog (mkLog addr bn bh th txi li ts [transferTopic, f, t, w] []) acc := by
  have hp1 : parseTransferLog (mkLog addr bn bh th txi li ts [transferTopic, f, t] [w]) =
      some { «from» := f, «to» := t, tokenIdWord := w } := by
    simp [parseTransferLog, abiParseLogTransfer, nonStandardAbiParseLogTransfer, mkLog]
  have hp2 : parseTransferLog (mkLog addr bn bh th txi li ts [transferTopic, f, t, w] []) =
      some { «from» := f, «to» := t, tokenIdWord := w } := by
    simp [parseTransferLog, abiParseLogTransfer, mkLog]
  refine ⟨rfl, hp1, ?_⟩
  rw [processLog_transfer_ok (mkLog addr bn bh th txi li ts [transferTopic, f, t] [w]) acc
      { address := addr, block := bn, blockHash := bh, txHash := th,
        txIndex := txi, logIndex := li, timestamp := ts }
      { «from» := f, «to» := t, tokenIdWord := w } rfl rfl hp1,
    processLog_transfer_ok (mkLog addr bn bh th txi li ts [transferTopic, f, t, w] []) acc
      { address := addr, block := bn, blockHash := bh, txHash := th,
        txIndex := txi, logIndex := li, timestamp := ts }
      { «from» := f, «to» := t, tokenIdWord := w } rfl rfl hp2]

/-- C5: rows are keyed by the `(block_hash, tx_hash, log_index)` primary
key, so adding the same event twice — two deliveries of the same log —
leaves exactly one stored row for that key. -/
theorem cancel_events_pk_dedup (rows : List CancelRow) (e : CancelRow)
    (h : keyUnique rows) :
    countKey (addCancelEvent (addCancelEvent rows e) e) e.key = 1 := by
  by_cases hmem : rows.any (fun r => r.key = e.key) = true
  · have h1 : addCancelEvent rows e = rows := by simp [addCancelEvent, hmem]
    rw [h1, h1]
    obtain ⟨r, hr, hk⟩ := List.any_eq_true.mp hmem
    have hk' : r.key = e.key := of_decide_eq_true hk
    have hmemf : r ∈ rows.filter (fun x => x.key = e.key) :=
      List.mem_filter.mpr ⟨hr, by simp [hk']⟩
    have hpos : 0 < countKey rows e.key :=
      List.length_pos.mpr (List.ne_nil_of_mem hmemf)
    have hle : countKey rows e.key ≤ 1 := h e.key
    omega
  · have hnone : ∀ r ∈ rows, ¬(r.key = e.key) := by
      intro r hr hkey
      exact hmem (List.any_eq_true.mpr ⟨r, hr, decide_eq_true hkey⟩)
    have h1 : addCancelEvent rows e = rows ++ [e] := by
      simp only [addCancelEvent, if_neg hmem]
    have h2 : (rows ++ [e]).any (fun r => r.key = e.key) = true :=
      List.any_eq_true.mpr ⟨e, by simp, decide_eq_true rfl⟩
    have h3 : addCancelEvent (rows ++ [e]) e = rows ++ [e] := by
      simp [addCancelEvent, h2]
    rw [h1, h3]
    have hfil : rows.filter (fun r => r.key = e.key) = [] :=
      List.filter_eq_nil_iff.mpr (fun r hr => by simp [hnone r hr])
    unfold countKey
    rw [List.filter_append, hfil]
    simp

/-- Witness for C5: adding a concrete cancel row twice to the empty table
leaves exactly one row under its key. -/
theorem cancel_events_pk_dedup_witness :
    keyUnique []
    ∧ countKey (addCancelEvent (addCancelEvent [] sampleCancelRow) sampleCancelRow)
        sampleCancelRow.key = 1 := by
  have h : keyUnique ([] : List CancelRow) := by
    intro k
    simp [countKey]
  exact ⟨h, cancel_events_pk_dedup [] sampleCancelRow h⟩

/-- C6: `fixCallback` removes exactly the adapter's events stored under the
given block hash — both NFT approval events and NFT transfer events — and
calling it a second time for the same hash leaves the store unchanged. -/
theorem fixCallback_reorg_rollback (store : EventStore) (blockHash : String) :
    (∀ e, e ∈ (fixCallback store blockHash).approvalEvents ↔
      e ∈ store.approvalEvents ∧ e.baseParams.blockHash ≠ blockHash)
    ∧ (∀ e, e ∈ (fixCallback store blockHash).transferEvents ↔
      e ∈ store.transferEvents ∧ e.baseParams.blockHash ≠ blockHash)
    ∧ fixCallback (fixCallback store blockHash) blockHash =
        fixCallback store blockHash := by
  refine ⟨?_, ?_, ?_⟩
  · intro e
    simp [fixCallback, removeNftApprovalEvents, List.mem_filter]
  · intro e
    simp [fixCallback, removeNftTransferEvents, List.mem_filter]
  · simp [fixCallback, removeNftApprovalEvents, removeNftTransferEvents,
      List.filter_filter]

/-- Witness for C6: a store holding one approval and one transfer event
under block hash "0xb" is emptied by `fixCallback` for that hash, and a
second call leaves it unchanged. -/
theorem fixCallback_reorg_rollback_witness :
    fixCallback
      { approvalEvents := [sampleApprovalEvent],
        transferEvents := [sampleTransferEvent] } "0xb" =
      { approvalEvents := [], transferEvents := [] }
    ∧ fixCallback
        (fixCallback
          { approvalEvents := [sampleApprovalEvent],
            transferEvents := [sampleTransferEvent] } "0xb") "0xb" =
      fixCallback
        { approvalEvents := [sampleApprovalEvent],
          transferEvents := [sampleTransferEvent] } "0xb" :=
  ⟨by decide,
    (fixCallback_reorg_rollback
      { approvalEvents := [sampleApprovalEvent],
        transferEvents := [sampleTransferEvent] } "0xb").2.2⟩

/-- C7: every transfer event the ERC-721 adapter persists has amount equal
to the string "1". -/
theorem transfer_amount_default_one (cfg : Config) (logs : List Log)
    (backfill : Bool) :
    ∀ e ∈ (syncCallback cfg logs backfill).storedTransferEvents,
      e.amount = "1" := by
  intro e he
  exact syncAccumulate_amount logs e he

/-- Witness for C7: the event decoded from the sample Transfer log is stored
and carries amount "1". -/
theorem transfer_amount_default_one_witness :
    sampleTransferEvent ∈
      (syncCallback { acceptOrders := true } [sampleTransferLog]
        false).storedTransferEvents
    ∧ sampleTransferEvent.amount = "1" := by
  have hm : sampleTransferEvent ∈
      (syncCallback { acceptOrders := true } [sampleTransferLog]
        false).storedTransferEvents := by
    decide
  exact ⟨hm, transfer_amount_default_one { acceptOrders := true }
    [sampleTransferLog] false sampleTransferEvent hm⟩

/-- C8: the filter returned by `getContractInfo` scopes by exactly the
address list passed in and sets no topic filter. -/
theorem getContractInfo_filter_shape (address : List String) :
    (getContractInfo address).filter.address = address
    ∧ (getContractInfo address).filter.topics = none :=
  ⟨rfl, rfl⟩

/-- C9: when processing a log throws at any step — base-params extraction,
ABI parse including the fallback, or argument extraction — that log
contributes zero entries to every accumulated batch; the only effect is one
logged failure, so no partial result (such as a transfer event without its
two MakerInfo entries) is ever left behind. -/
theorem processLog_no_partial_result (log : Log) (acc : SyncAcc)
    (h : logFails log = true) :
    (processLog log acc).approvalEvents = acc.approvalEvents
    ∧ (processLog log acc).transferEvents = acc.transferEvents
    ∧ (processLog log acc).makerInfos = acc.makerInfos
    ∧ (processLog log acc).failures = acc.failures + 1 := by
  rw [processLog_combine log acc, contribution_of_logFails log h]
  simp [combine, emptyAcc]

/-- Witness for C9: the malformed sample Transfer log leaves every batch
untouched and logs one failure. -/
theorem processLog_no_partial_result_witness :
    logFails sampleBadLog = true
    ∧ (processLog sampleBadLog emptyAcc).approvalEvents = emptyAcc.approvalEvents
    ∧ (processLog sampleBadLog emptyAcc).transferEvents = emptyAcc.transferEvents
    ∧ (processLog sampleBadLog emptyAcc).makerInfos = emptyAcc.makerInfos
    ∧ (processLog sampleBadLog emptyAcc).failures = emptyAcc.failures + 1 := by
  have h : logFails sampleBadLog = true := by decide
  obtain ⟨h1, h2, h3, h4⟩ := processLog_no_partial_result sampleBadLog emptyAcc h
  exact ⟨h, h1, h2, h3, h4⟩

/-- C10 counterexample: a log with an unrecognized topic whose block/tx
metadata is missing is not silently skipped — base-params extraction throws
first, so `syncCallback` logs one failure for it, contradicting the claim
that such a log produces no logged failure. -/
theorem unknown_topic_not_silent_counterexample :
    sampleNoMetaLog.topics.head? ≠ some transferTopic
    ∧ sampleNoMetaLog.topics.head? ≠ some approvalForAllTopic
    ∧ (syncCallback { acceptOrders := true } [sampleNoMetaLog] false).failures = 1 := by
  refine ⟨by decide, by decide, by decide⟩

/-- C10 (amended): for every log whose base params extract successfully and
whose `topics[0]` matches neither the Transfer topic nor the ApprovalForAll
topic, the loop body is a no-op: no event, no MakerInfo entry, and no logged
failure. -/
theorem unknown_topic_silent_skip (log : Log) (acc : SyncAcc)
    (bp : BaseEventParams)
    (hb : parseEvent log = some bp)
    (ht : log.topics.head? ≠ some transferTopic)
    (ha : log.topics.head? ≠ some approvalForAllTopic) :
    processLog log acc = acc :=
  processLog_unknown log acc bp hb ht ha

/-- Witness for C10 (amended): the sample unknown-topic log with complete
metadata is skipped without any effect. -/
theorem unknown_topic_silent_skip_witness :
    parseEvent sampleUnknownLog =
      some { address := "0xc", block := 7, blockHash := "0xb", txHash := "0xt",
             txIndex := 0, logIndex := 5, timestamp := 99 }
    ∧ processLog sampleUnknownLog emptyAcc = emptyAcc :=
  ⟨rfl, unknown_topic_silent_skip sampleUnknownLog emptyAcc _ rfl
    (by decide) (by decide)⟩

end Erc721Sync
